import Mathlib

/-
Shallow embedding of pwgen (src/src/main.rs), a command-line password
generator, together with proofs about its input resolution, password
generation, masked display and secure-erase steps.

Randomness is modelled by an abstract stream of raw draws
`rng : Nat → Nat`; each concrete distribution of the rand crate is
modelled by the reduction it applies to a raw draw:
`Uniform::new(lo, hi)` maps a draw r to `lo + r % (hi - lo)`,
the `Alphanumeric` distribution picks among its 62 characters, and
`gen_range(0..n)` reduces a draw modulo n.
-/

namespace Pwgen

/-- The 62 characters produced by the rand crate's `Alphanumeric`
distribution: `A-Z`, `a-z`, `0-9`. -/
def alphanumericChars : List Char :=
  "ABCDEFGHIJKLMNOPQRSTUVWXYZabcdefghijklmnopqrstuvwxyz0123456789".toList

/-- The fixed symbol set of `generate_password`
(the Rust string literal "!@#$%^&*()-=_+[]{}|;:',.<>?/"). -/
def symbols : List Char :=
  "!@#$%^&*()-=_+[]\x7b\x7d|;:\x27,.<>?/".toList

/-- Sampling `Uniform::new(lo, hi)` (half-open range) from a raw draw. -/
def uniformSample (lo hi r : Nat) : Nat := lo + r % (hi - lo)

/-- One sample of the `Alphanumeric` distribution from a raw draw. -/
def alnumAt (r : Nat) : Char :=
  alphanumericChars.get ⟨r % alphanumericChars.length, Nat.mod_lt _ (by decide)⟩

/-- One sample of `rng.gen_range(0..symbols.len())` indexed into `symbols`. -/
def symbolAt (r : Nat) : Char :=
  symbols.get ⟨r % symbols.length, Nat.mod_lt _ (by decide)⟩

/-- One character of the password: the closure inside `generate_password`.
The distribution `dist` is `Uniform::new(0, 2)` when symbols are enabled
and `Uniform::new(0, 1)` otherwise; a sample of 0 chooses an
alphanumeric character, anything else a symbol. -/
def genChar (include_symbols : Bool) (r1 r2 : Nat) : Char :=
  if uniformSample 0 (if include_symbols then 2 else 1) r1 = 0 then alnumAt r2
  else symbolAt r2

/-- Rust `generate_password(length, include_symbols)`: map each position
in `0..length` to one character; position i consumes raw draws
`rng (2*i)` (for `dist.sample`) and `rng (2*i+1)` (for the character). -/
def generate_password (length : Nat) (include_symbols : Bool)
    (rng : Nat → Nat) : List Char :=
  (List.range length).map fun i =>
    genChar include_symbols (rng (2 * i)) (rng (2 * i + 1))

/-- UTF-8 encoding of a single character, as its list of bytes. -/
def charUtf8 (c : Char) : List Nat :=
  let n := c.toNat
  if n < 128 then [n]
  else if n < 2048 then [192 + n / 64, 128 + n % 64]
  else if n < 65536 then [224 + n / 4096, 128 + (n / 64) % 64, 128 + n % 64]
  else [240 + n / 262144, 128 + (n / 4096) % 64, 128 + (n / 64) % 64, 128 + n % 64]

/-- The UTF-8 byte representation of a string (Rust `String::into_bytes`). -/
def stringBytes (s : List Char) : List Nat :=
  (s.map charUtf8).flatten

/-- Rust `rng.fill(&mut bytes[0..])`: overwrite every byte in place with a
fresh random byte; the buffer keeps its length. -/
def fillRandomBytes (bytes : List Nat) (rng : Nat → Nat) : List Nat :=
  (List.range bytes.length).map fun i => rng i % 256

/-- Rust `destroy_password(password)`: convert the string to its byte
buffer, overwrite the bytes with garbage, and return the byte count. -/
def destroy_password (password : List Char) (rng : Nat → Nat) : Nat :=
  (fillRandomBytes (stringBytes password) rng).length

/-- The mask glyph substituted for hidden password characters. -/
def maskGlyph : Char := '●'

/-- The masked display line built in `main`:
`&password[0..5]`, then `"●".repeat(length - 7)`, then
`&password[length - 3..]`. The Rust slices are byte-index slices; they
coincide with character-index slices because every generated character
is a single-byte ASCII character (theorem `generate_ascii`). -/
def displayLine (password : List Char) (length : Nat) : List Char :=
  password.take 5 ++ List.replicate (length - 7) maskGlyph ++ password.drop (length - 3)

/-- Rust `str::trim`: strip leading and trailing whitespace. -/
def trimChars (s : List Char) : List Char :=
  ((s.dropWhile Char.isWhitespace).reverse.dropWhile Char.isWhitespace).reverse

/-- Value of a list of ASCII digits. -/
def digitsToNat (s : List Char) : Nat :=
  s.foldl (fun n c => n * 10 + (c.toNat - 48)) 0

/-- A run of one or more ASCII digits whose value fits in a 64-bit
usize; Rust's parse reports an error (overflow) beyond usize::MAX. -/
def parseUsizeDigits (s : List Char) : Option Nat :=
  if s ≠ [] ∧ s.all Char.isDigit ∧ digitsToNat s ≤ 2 ^ 64 - 1 then
    some (digitsToNat s)
  else none

/-- Rust `str::parse::<usize>()`: an optional leading plus sign followed
by one or more digits; a minus sign or any other character is rejected. -/
def parseUsize (s : List Char) : Option Nat :=
  match s with
  | '+' :: rest => parseUsizeDigits rest
  | _ => parseUsizeDigits s

/-- Parsing one line of the length prompt, on its character list: Rust
`length_str.trim().parse::<usize>()` guarded by
`(10..=100).contains(&num)`. `some n` means the loop accepts the line
with value n; `none` means it prints the error and reprompts. -/
def parseLengthList (s : List Char) : Option Nat :=
  match parseUsize (trimChars s) with
  | some n => if 10 ≤ n ∧ n ≤ 100 then some n else none
  | none => none

/-- Parsing one line of the length prompt. -/
def parseLength (line : String) : Option Nat :=
  parseLengthList line.toList

/-- The interactive length loop of `main`, over the (finite) list of
lines standard input will yield: keep reading until a line parses to an
integer in [10, 100]. `none` models the loop never terminating because
no line is ever accepted. -/
def promptLength : List String → Option Nat
  | [] => none
  | line :: rest =>
    match parseLength line with
    | some n => some n
    | none => promptLength rest

/-- Rust `include_symbols_str.trim().to_lowercase() == "yes"`.
Lowercasing is per character; on the ASCII strings that can compare
equal to "yes" this agrees with Rust's Unicode lowercasing. -/
def parseIncludeSymbols (line : String) : Bool :=
  (trimChars line.toList).map Char.toLower == "yes".toList

/-- The whole interactive branch of `main`: loop on the length prompt,
then read exactly one further line for the symbol question. Reading at
end of input yields the empty string (Rust `read_line` returns Ok(0)
and leaves the buffer empty). -/
def resolveInteractive : List String → Option (Nat × Bool)
  | [] => none
  | line :: rest =>
    match parseLength line with
    | some n => some (n, parseIncludeSymbols (rest.headD ""))
    | none => resolveInteractive rest

/-- The clap-derived argument record: one flag, `--ask`. -/
structure Args where
  ask : Bool

/-- Command-line parsing: `ask` is set when `--ask` appears in argv. -/
def parseArgs (argv : List String) : Args :=
  ⟨argv.contains "--ask"⟩

/-- Input resolution in `main`: interactive when `--ask` was given,
fixed defaults `(50, true)` otherwise. -/
def resolveInputs (args : Args) (stdin : List String) : Option (Nat × Bool) :=
  if args.ask then resolveInteractive stdin else some (50, true)

/-! Helper lemmas shared by the claim theorems. -/

/-- Every sample of the alphanumeric distribution is one of its 62 characters. -/
theorem alnumAt_mem (r : Nat) : alnumAt r ∈ alphanumericChars := by
  unfold alnumAt
  exact List.get_mem _ _ _

/-- Every sampled symbol is in the fixed symbol set. -/
theorem symbolAt_mem (r : Nat) : symbolAt r ∈ symbols := by
  unfold symbolAt
  exact List.get_mem _ _ _

/-- Each generated character comes from one of the two character sets. -/
theorem genChar_mem (s : Bool) (r1 r2 : Nat) :
    genChar s r1 r2 ∈ alphanumericChars ∨ genChar s r1 r2 ∈ symbols := by
  unfold genChar
  by_cases h : uniformSample 0 (if s then 2 else 1) r1 = 0
  · rw [if_pos h]; exact Or.inl (alnumAt_mem r2)
  · rw [if_neg h]; exact Or.inr (symbolAt_mem r2)

/-- With symbols disabled the distribution is Uniform::new(0, 1), whose
sample is always 0, so the character is always alphanumeric. -/
theorem genChar_false (r1 r2 : Nat) : genChar false r1 r2 = alnumAt r2 := by
  simp [genChar, uniformSample, Nat.mod_one]

theorem mem_generate_password {c : Char} {L : Nat} {s : Bool} {rng : Nat → Nat}
    (h : c ∈ generate_password L s rng) :
    c ∈ alphanumericChars ∨ c ∈ symbols := by
  simp only [generate_password, List.mem_map] at h
  obtain ⟨i, -, rfl⟩ := h
  exact genChar_mem s _ _

theorem alphanumericChars_alphanum : ∀ c ∈ alphanumericChars, c.isAlphanum = true := by
  decide

theorem alphanumericChars_ascii : ∀ c ∈ alphanumericChars, c.toNat < 128 := by
  decide

theorem symbols_ascii : ∀ c ∈ symbols, c.toNat < 128 := by
  decide

theorem length_generate (L : Nat) (s : Bool) (rng : Nat → Nat) :
    (generate_password L s rng).length = L := by
  simp [generate_password]

/-- Every generated character is single-byte ASCII. -/
theorem generate_ascii (L : Nat) (s : Bool) (rng : Nat → Nat) :
    ∀ c ∈ generate_password L s rng, c.toNat < 128 := by
  intro c hc
  rcases mem_generate_password hc with h | h
  · exact alphanumericChars_ascii c h
  · exact symbols_ascii c h

theorem charUtf8_ascii {c : Char} (h : c.toNat < 128) : charUtf8 c = [c.toNat] := by
  simp [charUtf8, h]

/-- An all-ASCII string has as many UTF-8 bytes as characters. -/
theorem stringBytes_length_ascii {s : List Char} (h : ∀ c ∈ s, c.toNat < 128) :
    (stringBytes s).length = s.length := by
  induction s with
  | nil => rfl
  | cons c cs ih =>
    have hc : charUtf8 c = [c.toNat] := charUtf8_ascii (h c (List.mem_cons_self c cs))
    have ih' := ih fun x hx => h x (List.mem_cons_of_mem c hx)
    simp [stringBytes, hc] at ih' ⊢
    omega

/-- What the length prompt accepts, at the character-list level: exactly
the lines whose trimmed text parses to an integer in [10, 100]. -/
theorem parseLengthList_eq_some (s : List Char) (n : Nat) :
    parseLengthList s = some n ↔
      parseUsize (trimChars s) = some n ∧ 10 ≤ n ∧ n ≤ 100 := by
  unfold parseLengthList
  split
  · next m heq =>
    rw [heq]
    by_cases hr : 10 ≤ m ∧ m ≤ 100
    · rw [if_pos hr]
      simp only [Option.some.injEq]
      constructor
      · intro h; exact ⟨h, h ▸ hr.1, h ▸ hr.2⟩
      · intro h; exact h.1
    · rw [if_neg hr]
      simp only [Option.some.injEq]
      constructor
      · intro h; exact Option.noConfusion h
      · rintro ⟨rfl, h1, h2⟩; exact absurd ⟨h1, h2⟩ hr
  · next heq =>
    rw [heq]
    simp

/-- What the length prompt accepts: exactly the lines whose trimmed text
parses to an integer in [10, 100]. -/
theorem parseLength_eq_some (line : String) (n : Nat) :
    parseLength line = some n ↔
      parseUsize (trimChars line.toList) = some n ∧ 10 ≤ n ∧ n ≤ 100 :=
  parseLengthList_eq_some line.toList n

/-- An accepted line of the length prompt always yields a value in range. -/
theorem parseLength_range {line : String} {n : Nat} (h : parseLength line = some n) :
    10 ≤ n ∧ n ≤ 100 :=
  ((parseLengthList_eq_some line.toList n).mp h).2

/-- The interactive branch only ever reports a length in [10, 100]. -/
theorem resolveInteractive_range {lines : List String} {n : Nat} {b : Bool}
    (h : resolveInteractive lines = some (n, b)) : 10 ≤ n ∧ n ≤ 100 := by
  induction lines with
  | nil => simp [resolveInteractive] at h
  | cons line rest ih =>
    unfold resolveInteractive at h
    split at h
    · next m heq =>
      simp only [Option.some.injEq, Prod.mk.injEq] at h
      obtain ⟨rfl, -⟩ := h
      exact parseLength_range heq
    · exact ih h

/-- With symbols disabled every generated character is alphanumeric. -/
theorem generate_false_alphanum (L : Nat) (rng : Nat → Nat) :
    ∀ c ∈ generate_password L false rng, c.isAlphanum = true := by
  intro c hc
  simp only [generate_password, List.mem_map] at hc
  obtain ⟨i, -, rfl⟩ := hc
  rw [genChar_false]
  exact alphanumericChars_alphanum _ (alnumAt_mem _)

/-! Claim theorems. -/

/-- C3: for every requested length L in [10, 100] and every symbol
setting, generate_password returns a string of exactly L characters. -/
theorem generate_password_length_in_range (L : Nat) (s : Bool) (rng : Nat → Nat)
    (h1 : 10 ≤ L) (h2 : L ≤ 100) :
    (generate_password L s rng).length = L :=
  length_generate L s rng

theorem generate_password_length_in_range_witness :
    10 ≤ 50 ∧ 50 ≤ 100 ∧ (generate_password 50 true (fun _ => 0)).length = 50 :=
  ⟨by decide, by decide,
    generate_password_length_in_range 50 true (fun _ => 0) (by decide) (by decide)⟩

/-- C4: for every length, if include_symbols is false then every
character of the generated password is alphanumeric. -/
theorem generate_password_no_symbols_alphanumeric (L : Nat) (rng : Nat → Nat) :
    ∀ c ∈ generate_password L false rng, c.isAlphanum = true :=
  generate_false_alphanum L rng

theorem generate_password_no_symbols_alphanumeric_witness :
    'A' ∈ generate_password 10 false (fun _ => 0) ∧ Char.isAlphanum 'A' = true :=
  ⟨by decide,
    generate_password_no_symbols_alphanumeric 10 (fun _ => 0) 'A' (by decide)⟩

/-- C9: every generated character is an alphanumeric character or one of
the 28 characters of the fixed symbol set, and is single-byte ASCII, so
the password's UTF-8 byte count equals its character count. -/
theorem generate_password_ascii_single_byte (L : Nat) (s : Bool) (rng : Nat → Nat) :
    (∀ c ∈ generate_password L s rng,
      (c ∈ alphanumericChars ∨ c ∈ symbols) ∧ c.toNat < 128) ∧
    symbols.length = 28 ∧
    (stringBytes (generate_password L s rng)).length =
      (generate_password L s rng).length := by
  refine ⟨fun c hc => ⟨mem_generate_password hc, generate_ascii L s rng c hc⟩,
    by decide, ?_⟩
  exact stringBytes_length_ascii (generate_ascii L s rng)

theorem generate_password_ascii_single_byte_witness :
    'A' ∈ generate_password 10 true (fun _ => 0) ∧
    (('A' ∈ alphanumericChars ∨ 'A' ∈ symbols) ∧ Char.toNat 'A' < 128) :=
  ⟨by decide,
    (generate_password_ascii_single_byte 10 true (fun _ => 0)).1 'A' (by decide)⟩

/-- C5: destroy_password returns a byte count equal to the original
requested length of the generated password, so the caller's
assert_eq!(length, len) never fails. -/
theorem destroy_password_reports_length (L : Nat) (s : Bool) (rng rng2 : Nat → Nat) :
    destroy_password (generate_password L s rng) rng2 = L := by
  unfold destroy_password fillRandomBytes
  rw [List.length_map, List.length_range,
    stringBytes_length_ascii (generate_ascii L s rng), length_generate]

/-- C6: the length prompt loop accepts a line exactly when it parses to
an integer in [10, 100]; otherwise it moves on to the next line
(reprompt), and whenever the loop terminates its value is in range. -/
theorem prompt_length_loop_correct :
    (∀ line rest n, parseLength line = some n →
      promptLength (line :: rest) = some n) ∧
    (∀ line rest, parseLength line = none →
      promptLength (line :: rest) = promptLength rest) ∧
    (∀ lines n, promptLength lines = some n → 10 ≤ n ∧ n ≤ 100) ∧
    (∀ line n, parseLength line = some n ↔
      parseUsize (trimChars line.toList) = some n ∧ 10 ≤ n ∧ n ≤ 100) := by
  refine ⟨?_, ?_, ?_, parseLength_eq_some⟩
  · intro line rest n h; simp [promptLength, h]
  · intro line rest h; simp [promptLength, h]
  · intro lines
    induction lines with
    | nil => intro n h; simp [promptLength] at h
    | cons line rest ih =>
      intro n h
      unfold promptLength at h
      split at h
      · next m heq => injection h with h; subst h; exact parseLength_range heq
      · exact ih n h

theorem prompt_length_loop_correct_witness :
    promptLength ["abc", "5", "150", "42"] = some 42 ∧ 10 ≤ 42 ∧ 42 ≤ 100 :=
  ⟨by decide,
    (prompt_length_loop_correct.2.2.1 ["abc", "5", "150", "42"] 42 (by decide)).1,
    (prompt_length_loop_correct.2.2.1 ["abc", "5", "150", "42"] 42 (by decide)).2⟩

/-- C10: once a length line is accepted, the symbol question reads
exactly one further line, and include_symbols is true exactly when the
trimmed lowercased answer equals "yes"; every other answer (including
"y", "no", the empty string) silently yields false. -/
theorem symbol_question_once (line ans : String) (more : List String) (n : Nat)
    (h : parseLength line = some n) :
    resolveInteractive (line :: ans :: more) = some (n, parseIncludeSymbols ans) ∧
    (parseIncludeSymbols ans = true ↔
      (trimChars ans.toList).map Char.toLower = "yes".toList) ∧
    parseIncludeSymbols "y" = false ∧
    parseIncludeSymbols "no" = false ∧
    parseIncludeSymbols "" = false := by
  refine ⟨?_, ?_, by decide, by decide, by decide⟩
  · simp [resolveInteractive, h]
  · simp [parseIncludeSymbols]

theorem symbol_question_once_witness :
    resolveInteractive ["42", "Yes", "ignored"] =
      some (42, parseIncludeSymbols "Yes") ∧
    parseIncludeSymbols "Yes" = true :=
  ⟨(symbol_question_once "42" "Yes" ["ignored"] 42 (by decide)).1, by decide⟩

/-- C8: without the --ask flag, input resolution returns exactly the
fixed defaults, length 50 with symbols enabled. -/
theorem resolveInputs_defaults (argv stdin : List String) (h : "--ask" ∉ argv) :
    resolveInputs (parseArgs argv) stdin = some (50, true) := by
  simp [resolveInputs, parseArgs]
  intro hmem
  exact absurd hmem h

theorem resolveInputs_defaults_witness :
    resolveInputs (parseArgs []) [] = some (50, true) :=
  resolveInputs_defaults [] [] (by decide)

/-- C7: every resolved length lies in [10, 100], and under length ≥ 10
the display's slice bounds are safe: the password has at least 5
characters, length - 7 and length - 3 do not underflow, and the trailing
slice takes exactly the last 3 characters. -/
theorem display_slice_arithmetic_safe :
    (∀ argv stdin L b,
      resolveInputs (parseArgs argv) stdin = some (L, b) → 10 ≤ L ∧ L ≤ 100) ∧
    (∀ L s rng, 10 ≤ L →
      5 ≤ (generate_password L s rng).length ∧
      7 ≤ L ∧ 3 ≤ L ∧
      L - 3 ≤ (generate_password L s rng).length ∧
      ((generate_password L s rng).drop (L - 3)).length = 3) := by
  constructor
  · intro argv stdin L b h
    unfold resolveInputs at h
    split at h
    · exact resolveInteractive_range h
    · simp only [Option.some.injEq, Prod.mk.injEq] at h
      obtain ⟨rfl, -⟩ := h
      exact ⟨by norm_num, by norm_num⟩
  · intro L s rng h
    have hl := length_generate L s rng
    have hd : ((generate_password L s rng).drop (L - 3)).length = L - (L - 3) := by
      simp [length_generate]
    exact ⟨by omega, by omega, by omega, by omega, by omega⟩

theorem display_slice_arithmetic_safe_witness :
    (10 ≤ 50 ∧ 50 ≤ 100) ∧
    (5 ≤ (generate_password 10 false (fun _ => 0)).length ∧
      7 ≤ 10 ∧ 3 ≤ 10 ∧
      10 - 3 ≤ (generate_password 10 false (fun _ => 0)).length ∧
      ((generate_password 10 false (fun _ => 0)).drop (10 - 3)).length = 3) :=
  ⟨display_slice_arithmetic_safe.1 [] [] 50 true (by decide),
    display_slice_arithmetic_safe.2 10 false (fun _ => 0) (by decide)⟩

/-- C1 (amended): for every password of length L in [10, 100], the
masked display prints exactly the 5 leading characters, then (L - 7)
mask glyphs, then the last 3 characters; the total displayed length is
L + 1, one more than the generated length (not L). -/
theorem masked_display_structure (L : Nat) (s : Bool) (rng : Nat → Nat)
    (h1 : 10 ≤ L) (h2 : L ≤ 100) :
    displayLine (generate_password L s rng) L =
      (generate_password L s rng).take 5 ++
        List.replicate (L - 7) maskGlyph ++
        (generate_password L s rng).drop (L - 3) ∧
    ((generate_password L s rng).take 5).length = 5 ∧
    ((generate_password L s rng).drop (L - 3)).length = 3 ∧
    (displayLine (generate_password L s rng) L).length = L + 1 := by
  have hl := length_generate L s rng
  refine ⟨rfl, ?_, ?_, ?_⟩
  · simp [List.length_take, hl]; omega
  · simp [List.length_drop, hl]; omega
  · simp [displayLine, List.length_append, List.length_take, List.length_drop,
      List.length_replicate, hl]
    omega

/-- C1 as stated is false on the code: at length 10 the display holds
11 characters, not 10. -/
theorem masked_display_structure_cex :
    ¬ ((displayLine (generate_password 10 false (fun _ => 0)) 10).length = 10) := by
  decide

theorem masked_display_structure_witness :
    (10 ≤ 10 ∧ 10 ≤ 100) ∧
    (displayLine (generate_password 10 false (fun _ => 0)) 10).length = 10 + 1 :=
  ⟨⟨by decide, by decide⟩,
    (masked_display_structure 10 false (fun _ => 0) (by decide) (by decide)).2.2.2⟩

/-- C2 (amended): for input length 10 with symbols disabled, the display
is 5 visible alphanumeric characters, then 3 mask glyphs, then the last
3 (not 2) password characters, all alphanumeric; 11 displayed characters
in total (not 10). -/
theorem masked_display_length10_pattern (rng : Nat → Nat) :
    displayLine (generate_password 10 false rng) 10 =
      (generate_password 10 false rng).take 5 ++
        List.replicate 3 maskGlyph ++
        (generate_password 10 false rng).drop 7 ∧
    ((generate_password 10 false rng).take 5).length = 5 ∧
    ((generate_password 10 false rng).drop 7).length = 3 ∧
    (displayLine (generate_password 10 false rng) 10).length = 11 ∧
    (∀ c ∈ generate_password 10 false rng, c.isAlphanum = true) := by
  have hl := length_generate 10 false rng
  refine ⟨rfl, ?_, ?_, ?_, generate_false_alphanum 10 rng⟩
  · simp [List.length_take, hl]
  · simp [List.length_drop, hl]
  · simp [displayLine, List.length_append, List.length_take, List.length_drop,
      List.length_replicate, hl]

/-- C2 as stated is false on the code: the display of a length-10
password holds 11 characters, not 10. -/
theorem masked_display_length10_pattern_cex :
    ¬ ((displayLine (generate_password 10 false (fun _ => 1)) 10).length = 10) := by
  decide

theorem masked_display_length10_pattern_witness :
    (displayLine (generate_password 10 false (fun _ => 0)) 10).length = 11 ∧
    Char.isAlphanum 'A' = true :=
  ⟨(masked_display_length10_pattern (fun _ => 0)).2.2.2.1,
    (masked_display_length10_pattern (fun _ => 0)).2.2.2.2 'A' (by decide)⟩

end Pwgen
